import Mathlib

/-!
# Verification of the Forex Safety Shield signal pipeline (src/app.py)

Shallow embedding of the computational core of `src/app.py`:

* `get_pip_unit` — pip size lookup (app.py lines 35–37),
* `calculate_rsi` — RSI(14) over a close series (lines 39–44),
* `fetch_news` — news fetch / filter / passed-upcoming split (lines 61–113),
* `get_market_data` — daily ATR(14) and M30 RSI pipeline (lines 117–154),
* the module-level rollover check and master status chain (lines 204–243),
* risk sizing `sl_dist` / `tp_dist` (lines 306–307).

Numeric values are modelled as rationals (`ℚ`).  Pandas `NaN` results are
modelled as `Option.none`: every pandas series in the source is NaN-free
except where noted, and the places where a NaN can arise (a rolling mean
whose window is not yet full, a `0/0` in the RSI ratio) are made explicit
in the corresponding definition.  Times are modelled as integer counts
(seconds for news datetimes, minutes-of-day for the rollover check).
-/

namespace ForexShield

/-- One daily OHLC bar.  `dow` is the day of week of the session date
(Monday = 0 … Sunday = 6, the pandas convention); the pipeline in
`get_market_data` never reads it — the field is carried so that claims
about day-of-week purging can be stated. -/
structure Bar where
  dow : Nat
  high : ℚ
  low : ℚ
  close : ℚ
deriving DecidableEq, Repr

/-- The OHLC content of a bar, without its day-of-week label. -/
def stripDow (b : Bar) : ℚ × ℚ × ℚ := (b.high, b.low, b.close)

/-- `get_pip_unit` (app.py 35–37): `0.01` when the substring `"JPY"`
occurs in the pair string, else `0.0001`.  Python's `"JPY" in pair` is a
case-sensitive substring test, modelled as list infix on the characters. -/
def get_pip_unit (pair : String) : ℚ :=
  if "JPY".toList <:+: pair.toList then 1/100 else 1/10000

/-- True Range of one bar given the previous close (app.py 134–137).
When there is no previous close, the two gap columns `h_pc`, `l_pc` are
NaN and pandas `max(axis=1)` (skipna) reduces to the `h_l` column alone,
so the first bar's TR is `high - low`. -/
def trOf (prev : Option ℚ) (b : Bar) : ℚ :=
  match prev with
  | none => b.high - b.low
  | some pc => max (b.high - b.low) (max |b.high - pc| |b.low - pc|)

/-- The TR column of the daily frame (app.py 134–137): element `i` is the
True Range of bar `i` with respect to the close of bar `i-1`. -/
def trList : Option ℚ → List Bar → List ℚ
  | _, [] => []
  | prev, b :: rest => trOf prev b :: trList (some b.close) rest

/-- `rolling(window=14).mean()` at index `i` over a NaN-free column:
defined (with exactly the trailing 14 entries `i-13 … i`) when `13 ≤ i`
and `i` is in range, `none` (NaN) otherwise. -/
def rollMean (xs : List ℚ) (i : Nat) : Option ℚ :=
  if 13 ≤ i ∧ i < xs.length then
    some (((xs.take (i + 1)).drop (i - 13)).sum / 14)
  else none

/-- Per-bar gain column of `calculate_rsi` (app.py 40–41):
`delta.where(delta > 0, 0)`.  `delta[0]` is NaN and `NaN > 0` is false,
so the first entry is replaced by `0`. -/
def gains (closes : List ℚ) : List ℚ :=
  match closes with
  | [] => []
  | _ :: _ => 0 :: List.zipWith (fun prev cur => max (cur - prev) 0) closes closes.tail

/-- Per-bar loss column of `calculate_rsi` (app.py 42):
`-delta.where(delta < 0, 0)`, with the leading NaN replaced by `0`. -/
def losses (closes : List ℚ) : List ℚ :=
  match closes with
  | [] => []
  | _ :: _ => 0 :: List.zipWith (fun prev cur => max (prev - cur) 0) closes closes.tail

/-- `calculate_rsi` (app.py 39–44) evaluated at index `i` of its output
series.  `rs = gain/loss` in IEEE arithmetic: when the average loss is `0`
and the average gain is positive, `rs = +∞` and `100 - 100/(1+rs)`
evaluates to `100`; when both averages are `0`, `rs` is NaN (`none`);
otherwise the rational formula applies. -/
def calculate_rsi (series : List ℚ) (i : Nat) : Option ℚ :=
  match rollMean (gains series) i, rollMean (losses series) i with
  | some g, some l =>
      if l = 0 then (if g = 0 then none else some 100)
      else some (100 - 100 / (1 + g / l))
  | _, _ => none

/-- Result of `get_market_data` (app.py 117–154): either the caught
exception's message (`{"error": str(e)}` / the explicit empty-frame
error), or the pair `(atr_pips, rsi_m30)` where each component is `none`
when the corresponding float is NaN. -/
def get_market_data (daily : List Bar) (m30 : List ℚ) (pip_unit : ℚ) :
    Except String (Option ℚ × Option ℚ) :=
  if daily.length = 0 ∨ m30.length = 0 then
    .error "No data returned from Yahoo Finance."
  else if daily.length < 2 then
    -- `df_daily['ATR'].iloc[-2]` raises IndexError on a 1-row frame;
    -- the except-branch returns {"error": str(e)}.
    .error "single positional indexer is out-of-bounds"
  else
    .ok ((rollMean (trList none daily) (daily.length - 2)).map (· / pip_unit),
         calculate_rsi m30 (m30.length - 1))

/-- The `atr_pips` component of a `get_market_data` result (`none` when
the call failed or the ATR was NaN). -/
def atrOf : Except String (Option ℚ × Option ℚ) → Option ℚ
  | .ok (a, _) => a
  | .error _ => none

/-- Whether a `get_market_data` result is the error dictionary. -/
def isErr : Except String (Option ℚ × Option ℚ) → Bool
  | .ok _ => false
  | .error _ => true

/-- The spec's Sunday purge (spec §4.1), which the claims assert happens
before the ATR computation: drop every bar whose session date has
day-of-week index 6.  Stated from the spec's words for comparison with
the pipeline above; `get_market_data` itself has no such step. -/
def sundayPurge (bars : List Bar) : List Bar :=
  bars.filter (fun b => b.dow ≠ 6)

/-! ## News engine (app.py 18–27, 61–113) -/

/-- The keyword whitelist `IMPORTANT_KEYWORDS` (app.py 18–27). -/
def IMPORTANT_KEYWORDS : List String :=
  ["CPI", "Consumer Price Index",
   "GDP", "Gross Domestic Product",
   "Nonfarm", "Non-Farm", "Payroll",
   "Unemployment Rate",
   "Interest Rate", "Policy Rate", "Minimum Bid Rate",
   "FOMC", "Monetary Policy",
   "Speaks", "Testifies", "Chair", "President",
   "Holiday", "Closed", "Observance"]

/-- One parsed calendar row.  `time` is the event's datetime after
`convert_to_latvia_time`, in seconds (`none` when the time text did not
parse — the function's except-branch returns `None`); timezone-database
lookup and strftime formatting are outside the embedding, so the row
carries the converted instant directly. -/
structure NewsRow where
  time : Option ℤ
  currency : String
  eventName : String
deriving DecidableEq, Repr

/-- `any(k.lower() in event_name.lower() for k in IMPORTANT_KEYWORDS)`
(app.py 90): case-insensitive substring match against the whitelist,
lowering applied per character. -/
def keywordMatch (event_name : String) : Bool :=
  IMPORTANT_KEYWORDS.any fun k =>
    decide ((k.toList.map Char.toLower) <:+: (event_name.toList.map Char.toLower))

/-- Python's `pair.split("/")` (app.py 63), recursively over the pair
string's characters. -/
def splitAux : List Char → List Char → List String
  | [], acc => [String.mk acc.reverse]
  | c :: cs, acc =>
    if c = '/' then String.mk acc.reverse :: splitAux cs []
    else splitAux cs (c :: acc)

/-- `relevant_currencies = pair.split("/")` (app.py 63). -/
def splitSlash (s : String) : List String := splitAux s.toList []

/-- The filter cascade of the `fetch_news` loop (app.py 86–99): a row
survives when its currency is one of the pair's two codes, its name
matches a whitelist keyword, its time parsed, and the event is within 24
hours of `now` in either direction.  Each kept row is paired with its
parsed event time. -/
def keptRows (relevant : List String) (now : ℤ) (rows : List NewsRow) :
    List (NewsRow × ℤ) :=
  rows.filterMap fun r =>
    match r.time with
    | none => none
    | some t =>
      if relevant.contains r.currency     -- Filter 1: currency match
          && keywordMatch r.eventName     -- Filter 2: keyword match
          && decide ((t - now).natAbs ≤ 86400)  -- Filter 4: 24h window
      then some (r, t) else none

/-- The passed/upcoming split of the `fetch_news` loop (app.py 104–108):
a kept event goes to `passed` when `now > event + 60 minutes`, otherwise
to `upcoming`; row order is preserved.  Returns `(upcoming, passed)`. -/
def classifyKept (now : ℤ) : List (NewsRow × ℤ) → List NewsRow × List NewsRow
  | [] => ([], [])
  | (r, t) :: rest =>
    if t + 3600 < now then
      ((classifyKept now rest).1, r :: (classifyKept now rest).2)
    else
      (r :: (classifyKept now rest).1, (classifyKept now rest).2)

/-- Outcome of the `requests.get` call in `fetch_news`: either it raised
(network failure, timeout — the function's except-branch), or it returned
a response with a status code and a list of parsed calendar rows. -/
inductive FetchResult where
  | failure
  | success (statusCode : Nat) (rows : List NewsRow)
deriving DecidableEq, Repr

/-- The 4-tuple returned by `fetch_news`:
`(upcoming, passed, news_error, fetch_time)`. -/
structure NewsResult where
  upcoming : List NewsRow
  passed : List NewsRow
  newsError : Bool
  fetchTime : ℤ
deriving DecidableEq, Repr

/-- `fetch_news` (app.py 61–113).  `now` is `datetime.now(USER_TIMEZONE)`
in seconds (also standing in for the formatted `fetch_time` string).
A raised exception or a non-200 status yields empty lists and the error
flag; otherwise the rows are filtered and split. -/
def fetch_news (pair : String) (now : ℤ) (result : FetchResult) : NewsResult :=
  match result with
  | .failure => ⟨[], [], true, now⟩
  | .success status rows =>
    if status ≠ 200 then ⟨[], [], true, now⟩
    else
      ⟨(classifyKept now (keptRows (splitSlash pair) now rows)).1,
       (classifyKept now (keptRows (splitSlash pair) now rows)).2,
       false, now⟩

/-! ## Trading-window gate and master status chain (app.py 204–243) -/

/-- The rollover check (app.py 204–213): current NY time-of-day, in
minutes, inside the closed window 16:50–18:05.  The weekday of `now_ny`
is never consulted. -/
def is_rollover (ny_minutes : Nat) : Bool :=
  decide (16 * 60 + 50 ≤ ny_minutes ∧ ny_minutes ≤ 18 * 60 + 5)

/-- `market_data_healthy = market_data and not market_data.get('error')`
(app.py 223). -/
def market_data_healthy (md : Except String (Option ℚ × Option ℚ)) : Bool :=
  match md with
  | .ok _ => true
  | .error _ => false

/-- The five terminal states of the master status chain (app.py 225–243). -/
inductive MasterStatus where
  | noTradeRollover      -- "NO TRADE (Rollover)"
  | connectionFailed     -- "Connection Failed. Check ForexFactory manually."
  | newsDanger           -- "DANGER: High Impact News"
  | marketDataFailed     -- "System Error: Market Data Failed"
  | safeToTrade          -- "SAFE TO TRADE"
deriving DecidableEq, Repr

/-- The module-level master status chain (app.py 225–243): an `elif`
cascade over rollover, news-fetch error, upcoming news, market-data
health.  `dow` is the day of week of the current NY time (Monday = 0 …
Sunday = 6), in scope at module level but never read by the chain. -/
def masterStatus (dow ny_minutes : Nat) (news_error : Bool)
    (upcoming : List NewsRow)
    (market_data : Except String (Option ℚ × Option ℚ)) : MasterStatus :=
  if is_rollover ny_minutes then .noTradeRollover
  else if news_error then .connectionFailed
  else if ¬upcoming.isEmpty then .newsDanger
  else if ¬market_data_healthy market_data then .marketDataFailed
  else .safeToTrade

/-! ## Risk sizing (app.py 306–307) -/

/-- `sl_dist = atr_pips * st.session_state.sl_mult` (app.py 306). -/
def sl_dist (atr_pips sl_mult : ℚ) : ℚ := atr_pips * sl_mult

/-- `tp_dist = atr_pips * st.session_state.tp_mult` (app.py 307). -/
def tp_dist (atr_pips tp_mult : ℚ) : ℚ := atr_pips * tp_mult

/-! ## Concrete bar and close series used as test inputs -/

/-- A weekday bar with high 2, low 1, close 3/2 (True Range 1 between
two such bars). -/
def flatBar : Bar := ⟨1, 2, 1, 3/2⟩

/-- 17 identical weekday bars, True Range 1 throughout. -/
def flatBars17 : List Bar :=
  [flatBar, flatBar, flatBar, flatBar, flatBar, flatBar, flatBar, flatBar,
   flatBar, flatBar, flatBar, flatBar, flatBar, flatBar, flatBar, flatBar,
   flatBar]

/-- 5 identical weekday bars. -/
def flatBars5 : List Bar := [flatBar, flatBar, flatBar, flatBar, flatBar]

/-- A bar whose range is 0.0020 price units around 1.1000. -/
def b20 : Bar := ⟨1, 11010/10000, 10990/10000, 11000/10000⟩

/-- 20 identical bars with range 0.0020 price units: with a pip unit of
0.0001 this series is engineered to yield ATR(14) = 20 pips. -/
def bars20 : List Bar :=
  [b20, b20, b20, b20, b20, b20, b20, b20, b20, b20,
   b20, b20, b20, b20, b20, b20, b20, b20, b20, b20]

/-- 16 daily bars, all with True Range 1, except that the bar at index 3
is a Sunday session (`dow = 6`) with a tiny 0.01 range. -/
def sundayBars : List Bar :=
  [flatBar, flatBar, flatBar, ⟨6, 151/100, 3/2, 3/2⟩,
   flatBar, flatBar, flatBar, flatBar, flatBar, flatBar, flatBar, flatBar,
   flatBar, flatBar, flatBar, flatBar]

/-- `sundayBars` with every day-of-week label rewritten to Monday. -/
def sundayBarsRelabeled : List Bar :=
  sundayBars.map (fun b => ⟨0, b.high, b.low, b.close⟩)

/-- 15 bars, True Range 1 each. -/
def barsA : List Bar :=
  ⟨0, 2, 1, 3/2⟩ ::
  [flatBar, flatBar, flatBar, flatBar, flatBar, flatBar, flatBar,
   flatBar, flatBar, flatBar, flatBar, flatBar, flatBar, flatBar]

/-- `barsA` with only the first bar's low changed (same close), giving
the first bar True Range 2 instead of 1. -/
def barsB : List Bar :=
  ⟨0, 2, 0, 3/2⟩ ::
  [flatBar, flatBar, flatBar, flatBar, flatBar, flatBar, flatBar,
   flatBar, flatBar, flatBar, flatBar, flatBar, flatBar, flatBar]

/-- A non-constant close series of length 16 whose trailing 15 closes are
all equal, so the last RSI window has zero average gain and loss. -/
def flatTailCloses : List ℚ :=
  [1, 2, 2, 2, 2, 2, 2, 2, 2, 2, 2, 2, 2, 2, 2, 2]

/-- Strictly increasing closes 1, 2, …, 14. -/
def risingCloses : List ℚ :=
  [1, 2, 3, 4, 5, 6, 7, 8, 9, 10, 11, 12, 13, 14]

/-! ## Helper lemmas -/

/-- The TR column has one entry per bar. -/
theorem trList_length (p : Option ℚ) (bars : List Bar) :
    (trList p bars).length = bars.length := by
  induction bars generalizing p with
  | nil => rfl
  | cons b rest ih => simp [trList, ih]

/-- The TR column of a concatenation splits at the boundary; the right
part starts from the last close of the left part (or the inherited
previous close when the left part is empty). -/
theorem trList_append (p : Option ℚ) (xs ys : List Bar) :
    trList p (xs ++ ys) =
      trList p xs ++ trList (xs.foldl (fun _ b => some b.close) p) ys := by
  induction xs generalizing p with
  | nil => rfl
  | cons x rest ih => simp [trList, ih]

/-- The TR column ignores the bars' day-of-week labels. -/
theorem trList_stripDow (p : Option ℚ) :
    ∀ (xs ys : List Bar), xs.map stripDow = ys.map stripDow →
      trList p xs = trList p ys := by
  intro xs
  induction xs generalizing p with
  | nil =>
    intro ys h
    cases ys with
    | nil => rfl
    | cons y ys => simp at h
  | cons x rest ih =>
    intro ys h
    cases ys with
    | nil => simp at h
    | cons y ys =>
      simp only [List.map_cons, List.cons.injEq, stripDow, Prod.mk.injEq] at h
      obtain ⟨⟨hh, hl, hc⟩, htl⟩ := h
      simp only [trList, trOf, hh, hl, hc, ih (some y.close) ys htl]

/-! ## Claim theorems -/

/-- C10: `get_pip_unit` is total and returns 0.01 exactly when the
substring "JPY" occurs anywhere in the pair string (quote or base side),
and 0.0001 for every other string. -/
theorem C10_get_pip_unit_charac :
    ∀ pair : String,
      (get_pip_unit pair = 1/100 ↔ "JPY".toList <:+: pair.toList) ∧
      (get_pip_unit pair = 1/10000 ↔ ¬ "JPY".toList <:+: pair.toList) := by
  intro pair
  unfold get_pip_unit
  by_cases h : "JPY".toList <:+: pair.toList <;> simp [h]

/-- C9: the stop-loss distance is `atr_pips * sl_mult` and the take-profit
distance is `atr_pips * tp_mult`; `atr_pips = 20` with a 0.5 SL multiplier
gives 10.0 pips, reproducible end-to-end from a 20-bar series engineered
to yield ATR = 20 pips. -/
theorem C9_risk_sizing :
    (∀ atr_pips sl_mult : ℚ, sl_dist atr_pips sl_mult = atr_pips * sl_mult) ∧
    (∀ atr_pips tp_mult : ℚ, tp_dist atr_pips tp_mult = atr_pips * tp_mult) ∧
    sl_dist 20 (1/2) = 10 ∧
    atrOf (get_market_data bars20 [1] (1/10000)) = some 20 ∧
    sl_dist ((atrOf (get_market_data bars20 [1] (1/10000))).getD 0) (1/2) = 10 := by
  have hatr : atrOf (get_market_data bars20 [1] (1/10000)) = some 20 := by
    norm_num [bars20, b20, get_market_data, atrOf, rollMean, trList, trOf,
      calculate_rsi, gains, losses, max_def, abs_of_nonneg, abs_of_nonpos]
  refine ⟨fun _ _ => rfl, fun _ _ => rfl, by norm_num [sl_dist], hatr, ?_⟩
  rw [hatr]
  norm_num [sl_dist]

/-- C8: a raised exception in the news fetch, or a non-200 HTTP status,
makes `fetch_news` return empty upcoming and passed lists with the error
flag set; whenever the error flag is set the lists are empty. -/
theorem C8_fetch_news_fails_soft :
    ∀ (pair : String) (now : ℤ) (result : FetchResult),
      (result = .failure → fetch_news pair now result = ⟨[], [], true, now⟩) ∧
      (∀ status rows, result = .success status rows → status ≠ 200 →
        fetch_news pair now result = ⟨[], [], true, now⟩) ∧
      ((fetch_news pair now result).newsError = true →
        (fetch_news pair now result).upcoming = [] ∧
        (fetch_news pair now result).passed = []) := by
  intro pair now result
  refine ⟨?_, ?_, ?_⟩
  · rintro rfl; rfl
  · rintro status rows rfl hs
    simp [fetch_news, hs]
  · cases result with
    | failure => intro _; exact ⟨rfl, rfl⟩
    | success status rows =>
      by_cases hs : status = 200
      · subst hs; simp [fetch_news]
      · simp [fetch_news, hs]

/-- C8 witness: concrete failure and non-200 inputs. -/
theorem C8_fetch_news_fails_soft_witness :
    fetch_news "EUR/USD" 0 .failure = ⟨[], [], true, 0⟩ ∧
    fetch_news "EUR/USD" 0 (.success 404 []) = ⟨[], [], true, 0⟩ :=
  ⟨(C8_fetch_news_fails_soft "EUR/USD" 0 .failure).1 rfl,
   (C8_fetch_news_fails_soft "EUR/USD" 0 (.success 404 [])).2.1 404 [] rfl
     (by decide)⟩

/-- C1 counterexample: the claim asserts a Weekend check comes first and
that data-health is reported in preference to news.  In the code there is
no weekend state at all: on a Saturday (NY weekday index 5) at noon with
no other condition the chain reports SAFE TO TRADE; and with both a
market-data failure and upcoming news the chain reports the news, not the
data failure. -/
theorem C1_counterexample :
    masterStatus 5 720 false [] (.ok (some 1, none)) = .safeToTrade ∧
    masterStatus 5 720 false [⟨some 0, "USD", "CPI"⟩] (.error "err") =
      .newsDanger := by
  exact ⟨rfl, rfl⟩

/-- C1 amended: the chain checks Rollover, then news-fetch failure, then
upcoming news, then market-data health, then SAFE, short-circuiting at
the first condition that holds; the weekday is never consulted (there is
no Weekend state), and both news conditions take precedence over a
market-data failure. -/
theorem C1_amended_chain :
    ∀ (dow dow' ny_minutes : Nat) (news_error : Bool)
      (upcoming : List NewsRow) (md : Except String (Option ℚ × Option ℚ)),
      (masterStatus dow ny_minutes news_error upcoming md =
        masterStatus dow' ny_minutes news_error upcoming md) ∧
      (is_rollover ny_minutes = true →
        masterStatus dow ny_minutes news_error upcoming md = .noTradeRollover) ∧
      (is_rollover ny_minutes = false → news_error = true →
        masterStatus dow ny_minutes news_error upcoming md = .connectionFailed) ∧
      (is_rollover ny_minutes = false → news_error = false → upcoming ≠ [] →
        masterStatus dow ny_minutes news_error upcoming md = .newsDanger) ∧
      (is_rollover ny_minutes = false → news_error = false → upcoming = [] →
        market_data_healthy md = false →
        masterStatus dow ny_minutes news_error upcoming md = .marketDataFailed) ∧
      (is_rollover ny_minutes = false → news_error = false → upcoming = [] →
        market_data_healthy md = true →
        masterStatus dow ny_minutes news_error upcoming md = .safeToTrade) := by
  intro dow dow' ny_minutes news_error upcoming md
  refine ⟨rfl, ?_, ?_, ?_, ?_, ?_⟩
  · intro h; simp [masterStatus, h]
  · intro h he; simp [masterStatus, h, he]
  · intro h he hup
    simp [masterStatus, h, he, List.isEmpty_iff, hup]
  · intro h he hup hmd
    subst hup; simp [masterStatus, h, he, hmd]
  · intro h he hup hmd
    subst hup; simp [masterStatus, h, he, hmd]

/-- C1 amended witness: each branch of the chain at a concrete input
(17:00 NY is inside the rollover window, 12:00 NY outside). -/
theorem C1_amended_chain_witness :
    masterStatus 5 1020 true [] (.ok (some 1, none)) = .noTradeRollover ∧
    masterStatus 0 720 true [] (.ok (some 1, none)) = .connectionFailed ∧
    masterStatus 0 720 false [⟨some 0, "USD", "CPI"⟩] (.error "e") = .newsDanger ∧
    masterStatus 0 720 false [] (.error "e") = .marketDataFailed ∧
    masterStatus 0 720 false [] (.ok (some 1, none)) = .safeToTrade :=
  ⟨(C1_amended_chain 5 5 1020 true [] (.ok (some 1, none))).2.1 (by decide),
   (C1_amended_chain 0 0 720 true [] (.ok (some 1, none))).2.2.1 (by decide) rfl,
   (C1_amended_chain 0 0 720 false [⟨some 0, "USD", "CPI"⟩]
      (.error "e")).2.2.2.1 (by decide) rfl (by decide),
   (C1_amended_chain 0 0 720 false [] (.error "e")).2.2.2.2.1
      (by decide) rfl rfl rfl,
   (C1_amended_chain 0 0 720 false [] (.ok (some 1, none))).2.2.2.2.2
      (by decide) rfl rfl rfl⟩

/-- C2 counterexample: the claim asserts every Sunday bar is dropped
before the daily ATR is computed.  On a 16-bar series containing one
Sunday bar (which the purge would indeed remove — the purged series has
15 bars) the pipeline's ATR is 1301/1400, whereas the ATR of the
Sunday-purged series is 1: the Sunday bar's tiny range is averaged in,
so no purge happens. -/
theorem C2_counterexample :
    sundayBars.length = 16 ∧ (sundayPurge sundayBars).length = 15 ∧
    atrOf (get_market_data sundayBars [1] 1) = some (1301/1400) ∧
    atrOf (get_market_data (sundayPurge sundayBars) [1] 1) = some 1 ∧
    get_market_data sundayBars [1] 1 ≠
      get_market_data (sundayPurge sundayBars) [1] 1 := by
  have h1 : atrOf (get_market_data sundayBars [1] 1) = some (1301/1400) := by
    norm_num [get_market_data, atrOf, sundayBars, flatBar, rollMean, trList,
      trOf, calculate_rsi, gains, losses, max_def, abs_of_nonneg, abs_of_nonpos]
  have h2 : atrOf (get_market_data (sundayPurge sundayBars) [1] 1) = some 1 := by
    norm_num [get_market_data, atrOf, sundayPurge, sundayBars, flatBar,
      rollMean, trList, trOf, calculate_rsi, gains, losses, max_def,
      abs_of_nonneg, abs_of_nonpos]
  refine ⟨by norm_num [sundayBars],
    by norm_num [sundayPurge, sundayBars, flatBar], h1, h2, fun h => ?_⟩
  rw [h, h2] at h1
  exact absurd (Option.some.inj h1) (by norm_num)

/-- C2 amended: `get_market_data` applies no Sunday purge — its result
depends only on the bars' OHLC values and never on their day-of-week
labels, so Sunday bars are kept and enter the ATR average. -/
theorem C2_amended_dow_never_consulted :
    ∀ (daily daily' : List Bar) (m30 : List ℚ) (pip_unit : ℚ),
      daily.map stripDow = daily'.map stripDow →
      get_market_data daily m30 pip_unit = get_market_data daily' m30 pip_unit := by
  intro daily daily' m30 pip h
  have hlen : daily.length = daily'.length := by
    have hc := congrArg List.length h
    simpa using hc
  have htr : trList none daily = trList none daily' :=
    trList_stripDow none daily daily' h
  unfold get_market_data
  rw [hlen, htr]

/-- C2 amended witness: relabelling every session of the Sunday-containing
series to Monday leaves the market-data result unchanged. -/
theorem C2_amended_dow_never_consulted_witness :
    get_market_data sundayBars [1] 1 = get_market_data sundayBarsRelabeled [1] 1 :=
  C2_amended_dow_never_consulted sundayBars sundayBarsRelabeled [1] 1 (by
    simp [sundayBars, sundayBarsRelabeled, stripDow, flatBar])

/-- C3 counterexample: the claim asserts the first bar (having no
previous close) is excluded from the rolling ATR window.  `barsA` and
`barsB` are 15-bar series sharing every bar after the first and the first
bar's close; only the first bar's low differs.  If the first bar were
excluded, the pipelines would agree; instead pandas `max(axis=1)` skips
the NaN gap columns, giving the first bar `TR = high - low`, which is
averaged in: the ATRs are 1 and 15/14. -/
theorem C3_counterexample :
    barsA.length = 15 ∧ barsB.length = 15 ∧
    barsA.tail = barsB.tail ∧
    (barsA.head?).map Bar.close = (barsB.head?).map Bar.close ∧
    atrOf (get_market_data barsA [1] 1) = some 1 ∧
    atrOf (get_market_data barsB [1] 1) = some (15/14) ∧
    atrOf (get_market_data barsA [1] 1) ≠ atrOf (get_market_data barsB [1] 1) := by
  have h1 : atrOf (get_market_data barsA [1] 1) = some 1 := by
    norm_num [get_market_data, atrOf, barsA, flatBar, rollMean, trList,
      trOf, calculate_rsi, gains, losses, max_def, abs_of_nonneg, abs_of_nonpos]
  have h2 : atrOf (get_market_data barsB [1] 1) = some (15/14) := by
    norm_num [get_market_data, atrOf, barsB, flatBar, rollMean, trList,
      trOf, calculate_rsi, gains, losses, max_def, abs_of_nonneg, abs_of_nonpos]
  refine ⟨by norm_num [barsA], by norm_num [barsB], rfl, rfl, h1, h2, fun h => ?_⟩
  rw [h1, h2] at h
  exact absurd (Option.some.inj h) (by norm_num)

/-- C3 amended: per-bar True Range is the max formula for every bar with
a predecessor; the first bar's TR degrades to `high - low` (the NaN gap
columns are skipped) and it IS included in the rolling window; ATR(14) at
the first full index is the arithmetic mean of all 14 TRs, the first bar's
included. -/
theorem C3_amended_tr_first_bar_included :
    (∀ (b : Bar) (rest : List Bar),
      (trList none (b :: rest)).head? = some (b.high - b.low)) ∧
    (∀ (bars : List Bar) (i : Nat) (a b : Bar),
      bars.get? i = some a → bars.get? (i + 1) = some b →
      (trList none bars).get? (i + 1) =
        some (max (b.high - b.low) (max |b.high - a.close| |b.low - a.close|))) ∧
    (∀ trs : List ℚ, trs.length = 14 → rollMean trs 13 = some (trs.sum / 14)) := by
  refine ⟨fun b rest => rfl, ?_, ?_⟩
  · have key : ∀ (bars : List Bar) (p : Option ℚ) (i : Nat) (a b : Bar),
        bars.get? i = some a → bars.get? (i + 1) = some b →
        (trList p bars).get? (i + 1) = some (trOf (some a.close) b) := by
      intro bars
      induction bars with
      | nil => intro p i a b ha _; simp at ha
      | cons x rest ih =>
        intro p i a b ha hb
        cases i with
        | zero =>
          cases rest with
          | nil => simp at hb
          | cons y rest' =>
            simp only [List.get?] at ha hb
            obtain rfl : x = a := by injection ha
            obtain rfl : y = b := by injection hb
            rfl
        | succ j =>
          simp only [List.get?] at ha hb
          simpa [trList] using ih (some x.close) j a b ha hb
    intro bars i a b ha hb
    have := key bars none i a b ha hb
    simpa [trOf] using this
  · intro trs hlen
    have h13 : (13 : Nat) ≤ 13 ∧ 13 < trs.length := by omega
    simp only [rollMean, if_pos h13]
    rw [show (13 : Nat) + 1 = trs.length from by omega]
    simp [List.take_length]

/-- C3 amended witness: the TR characterisations and the full-window mean
at concrete inputs. -/
theorem C3_amended_tr_first_bar_included_witness :
    (trList none [(⟨0, 2, 1, 3/2⟩ : Bar)]).head? = some (2 - 1) ∧
    (trList none [(⟨0, 3, 1, 2⟩ : Bar), ⟨1, 5, 1, 4⟩]).get? 1 =
      some (max (5 - 1) (max |(5 : ℚ) - 2| |(1 : ℚ) - 2|)) ∧
    rollMean [1, 1, 1, 1, 1, 1, 1, 1, 1, 1, 1, 1, 1, 1] 13 =
      some (([1, 1, 1, 1, 1, 1, 1, 1, 1, 1, 1, 1, 1, 1] : List ℚ).sum / 14) :=
  ⟨C3_amended_tr_first_bar_included.1 ⟨0, 2, 1, 3/2⟩ [],
   C3_amended_tr_first_bar_included.2.1 [⟨0, 3, 1, 2⟩, ⟨1, 5, 1, 4⟩] 0
     ⟨0, 3, 1, 2⟩ ⟨1, 5, 1, 4⟩ rfl rfl,
   C3_amended_tr_first_bar_included.2.2 [1, 1, 1, 1, 1, 1, 1, 1, 1, 1, 1, 1, 1, 1]
     (by norm_num)⟩

/-- C4 counterexample: the claim asserts a cleaned series of fewer than
18 bars makes the computation fail with an `InsufficientData` error.  On
17 bars the pipeline succeeds and returns a numeric ATR (no error of any
kind). -/
theorem C4_counterexample :
    flatBars17.length = 17 ∧
    get_market_data flatBars17 [1] 1 = .ok (some 1, none) := by
  constructor
  · norm_num [flatBars17]
  · norm_num [get_market_data, flatBars17, flatBar, rollMean, trList,
      trOf, calculate_rsi, gains, losses, max_def, abs_of_nonneg, abs_of_nonpos]

/-- C4 amended: there is no minimum-bar check at all.  With a non-empty
intraday frame: at least 15 daily bars give a successful result with a
numeric ATR; 2–14 bars give a successful result whose ATR is NaN (the
rolling window never fills); fewer than 2 bars give the caught error
(empty frame, or IndexError from `iloc[-2]`). -/
theorem C4_amended_no_min_bars_check :
    ∀ (daily : List Bar) (m30 : List ℚ) (pip_unit : ℚ),
      m30 ≠ [] →
      (15 ≤ daily.length →
        isErr (get_market_data daily m30 pip_unit) = false ∧
        atrOf (get_market_data daily m30 pip_unit) ≠ none) ∧
      (2 ≤ daily.length → daily.length < 15 →
        isErr (get_market_data daily m30 pip_unit) = false ∧
        atrOf (get_market_data daily m30 pip_unit) = none) ∧
      (daily.length < 2 → isErr (get_market_data daily m30 pip_unit) = true) := by
  intro daily m30 pip hm30
  have hm : ¬ m30.length = 0 := by
    simpa [List.length_eq_zero] using hm30
  refine ⟨?_, ?_, ?_⟩
  · intro h15
    have hdne : daily ≠ [] := by
      intro hh
      rw [hh] at h15
      simp at h15
    have h0 : ¬ (daily = [] ∨ m30 = []) := by
      push_neg
      exact ⟨hdne, hm30⟩
    have h2 : ¬ daily.length < 2 := by omega
    have hcond : 13 ≤ daily.length - 2 ∧
        daily.length - 2 < (trList none daily).length := by
      rw [trList_length]
      omega
    simp [get_market_data, h0, h2, isErr, atrOf, rollMean, hcond]
  · intro hge hlt
    have hdne : daily ≠ [] := by
      intro hh
      rw [hh] at hge
      simp at hge
    have h0 : ¬ (daily = [] ∨ m30 = []) := by
      push_neg
      exact ⟨hdne, hm30⟩
    have h2 : ¬ daily.length < 2 := by omega
    have hcond : ¬ (13 ≤ daily.length - 2 ∧
        daily.length - 2 < (trList none daily).length) := by
      rw [trList_length]
      omega
    simp [get_market_data, h0, h2, isErr, atrOf, rollMean, hcond]
  · intro hlt
    by_cases hz : daily = []
    · simp [get_market_data, hz, isErr]
    · have h0 : ¬ (daily = [] ∨ m30 = []) := by
        push_neg
        exact ⟨hz, hm30⟩
      simp [get_market_data, h0, hlt, isErr]

/-- C4 amended witness: 17 bars give a numeric ATR, 5 bars give NaN with
no error, an empty frame gives the error. -/
theorem C4_amended_no_min_bars_check_witness :
    (isErr (get_market_data flatBars17 [1] 1) = false ∧
      atrOf (get_market_data flatBars17 [1] 1) ≠ none) ∧
    (isErr (get_market_data flatBars5 [1] 1) = false ∧
      atrOf (get_market_data flatBars5 [1] 1) = none) ∧
    isErr (get_market_data ([] : List Bar) [1] 1) = true :=
  ⟨(C4_amended_no_min_bars_check flatBars17 [1] 1 (by simp)).1
      (by norm_num [flatBars17]),
   (C4_amended_no_min_bars_check flatBars5 [1] 1 (by simp)).2.1
      (by norm_num [flatBars5]) (by norm_num [flatBars5]),
   (C4_amended_no_min_bars_check [] [1] 1 (by simp)).2.2 (by simp)⟩

/-- C5: the sizing ATR is read off the second-to-last record, whose
rolling window involves only earlier bars, so two daily series of equal
length agreeing on every bar except the final one give the identical
market-data result (in particular the identical `atr_pips`): a
still-forming last bar never changes the displayed ATR. -/
theorem C5_stable_bar_selection :
    ∀ (xs : List Bar) (a b : Bar) (m30 : List ℚ) (pip_unit : ℚ),
      get_market_data (xs ++ [a]) m30 pip_unit =
        get_market_data (xs ++ [b]) m30 pip_unit := by
  intro xs a b m30 pip
  have hLa : (xs ++ [a]).length = xs.length + 1 := by simp
  have hLb : (xs ++ [b]).length = xs.length + 1 := by simp
  by_cases hx : xs = []
  · subst hx
    unfold get_market_data
    simp
  have hxs : 1 ≤ xs.length := by
    cases xs with
    | nil => exact absurd rfl hx
    | cons _ _ => simp
  have htake : ∀ c : Bar, (trList none (xs ++ [c])).take xs.length = trList none xs := by
    intro c
    rw [trList_append]
    rw [← trList_length none xs]
    exact List.take_left _ _
  have key : rollMean (trList none (xs ++ [a])) (xs.length + 1 - 2) =
      rollMean (trList none (xs ++ [b])) (xs.length + 1 - 2) := by
    have ha : (trList none (xs ++ [a])).length = xs.length + 1 := by
      rw [trList_length, hLa]
    have hb : (trList none (xs ++ [b])).length = xs.length + 1 := by
      rw [trList_length, hLb]
    have e1 : xs.length + 1 - 2 + 1 = xs.length := by omega
    unfold rollMean
    rw [ha, hb, e1, htake a, htake b]
  unfold get_market_data
  rw [hLa, hLb, key]

/-- Every element produced by a pointwise-nonnegative `zipWith` is
nonnegative. -/
theorem zipWith_nonneg (f : ℚ → ℚ → ℚ) (hf : ∀ a b, 0 ≤ f a b) :
    ∀ (l1 l2 : List ℚ) (x : ℚ), x ∈ List.zipWith f l1 l2 → 0 ≤ x := by
  intro l1
  induction l1 with
  | nil => intro l2 x hx; simp at hx
  | cons a l ih =>
    intro l2 x hx
    cases l2 with
    | nil => simp at hx
    | cons b l2' =>
      rcases List.mem_cons.mp hx with h | h
      · exact h ▸ hf a b
      · exact ih l2' x h

/-- Every entry of the gain column is nonnegative. -/
theorem gains_nonneg (closes : List ℚ) : ∀ x ∈ gains closes, 0 ≤ x := by
  intro x hx
  cases closes with
  | nil => simp [gains] at hx
  | cons c rest =>
    rcases List.mem_cons.mp hx with h | h
    · exact h.symm.le
    · exact zipWith_nonneg _ (fun a b => le_max_right _ _) _ _ x h

/-- Every entry of the loss column is nonnegative. -/
theorem losses_nonneg (closes : List ℚ) : ∀ x ∈ losses closes, 0 ≤ x := by
  intro x hx
  cases closes with
  | nil => simp [losses] at hx
  | cons c rest =>
    rcases List.mem_cons.mp hx with h | h
    · exact h.symm.le
    · exact zipWith_nonneg _ (fun a b => le_max_right _ _) _ _ x h

/-- A rolling mean of a nonnegative column is nonnegative. -/
theorem rollMean_nonneg (xs : List ℚ) (i : Nat) (m : ℚ)
    (hx : ∀ x ∈ xs, 0 ≤ x) (h : rollMean xs i = some m) : 0 ≤ m := by
  unfold rollMean at h
  split at h
  · have hs : 0 ≤ ((xs.take (i + 1)).drop (i - 13)).sum := by
      refine List.sum_nonneg fun x hmem => ?_
      exact hx x (List.take_subset _ _ (List.drop_subset _ _ hmem))
    obtain rfl : ((xs.take (i + 1)).drop (i - 13)).sum / 14 = m :=
      Option.some.inj h
    positivity
  · exact absurd h (by simp)

/-- C6 counterexample: the claim asserts every finite non-constant close
series long enough for the 14-period lookback has RSI in [0, 100].
`flatTailCloses` is non-constant (contains 1 and 2) and has 16 closes,
but its trailing window has zero average gain and zero average loss, so
`rs = 0/0` is NaN and the RSI the code reads (`RSI.iloc[-1]`) is NaN —
not a value in [0, 100]. -/
theorem C6_counterexample :
    flatTailCloses.length = 16 ∧
    (1 : ℚ) ∈ flatTailCloses ∧ (2 : ℚ) ∈ flatTailCloses ∧ (1 : ℚ) ≠ 2 ∧
    calculate_rsi flatTailCloses (flatTailCloses.length - 1) = none := by
  refine ⟨by norm_num [flatTailCloses], by norm_num [flatTailCloses],
    by norm_num [flatTailCloses], by norm_num, ?_⟩
  norm_num [calculate_rsi, flatTailCloses, rollMean, gains, losses, max_def]

/-- C6 amended: whenever the RSI value is defined (not the NaN `0/0`
case) it lies in [0, 100]; and when the trailing average loss is zero
with positive average gain, RSI saturates to exactly 100. -/
theorem C6_amended_rsi_bounds :
    (∀ (closes : List ℚ) (i : Nat) (r : ℚ),
      calculate_rsi closes i = some r → 0 ≤ r ∧ r ≤ 100) ∧
    (∀ (closes : List ℚ) (i : Nat) (g : ℚ),
      rollMean (gains closes) i = some g →
      rollMean (losses closes) i = some 0 → 0 < g →
      calculate_rsi closes i = some 100) := by
  constructor
  · intro closes i r h
    unfold calculate_rsi at h
    cases hg : rollMean (gains closes) i with
    | none => rw [hg] at h; simp at h
    | some g =>
      cases hl : rollMean (losses closes) i with
      | none => rw [hg, hl] at h; simp at h
      | some l =>
        rw [hg, hl] at h
        have hg0 : 0 ≤ g := rollMean_nonneg _ i g (gains_nonneg closes) hg
        have hl0 : 0 ≤ l := rollMean_nonneg _ i l (losses_nonneg closes) hl
        by_cases hlz : l = 0
        · by_cases hgz : g = 0
          · simp [hlz, hgz] at h
          · simp only [hlz, hgz, if_pos rfl, if_neg hgz] at h
            obtain rfl : (100 : ℚ) = r := Option.some.inj h
            norm_num
        · simp only [if_neg hlz] at h
          obtain rfl : 100 - 100 / (1 + g / l) = r := Option.some.inj h
          have hlpos : 0 < l := lt_of_le_of_ne hl0 (Ne.symm hlz)
          have hrs : 0 ≤ g / l := div_nonneg hg0 hlpos.le
          have h1 : (0 : ℚ) < 1 + g / l := by linarith
          have h2 : 100 / (1 + g / l) ≤ 100 := by
            apply div_le_self (by norm_num) (by linarith)
          have h3 : 0 < 100 / (1 + g / l) := div_pos (by norm_num) h1
          constructor <;> linarith
  · intro closes i g hg hl hgpos
    unfold calculate_rsi
    rw [hg, hl]
    simp [ne_of_gt hgpos]

/-- C6 amended witness: strictly rising closes 1…14 have average loss 0
and positive average gain at the last index, so RSI is exactly 100, which
is within [0, 100]. -/
theorem C6_amended_rsi_bounds_witness :
    calculate_rsi risingCloses 13 = some 100 ∧
    0 ≤ (100 : ℚ) ∧ (100 : ℚ) ≤ 100 := by
  have hg : rollMean (gains risingCloses) 13 = some (13/14) := by
    norm_num [gains, risingCloses, rollMean, max_def]
  have hl : rollMean (losses risingCloses) 13 = some 0 := by
    norm_num [losses, risingCloses, rollMean, max_def]
  have h100 : calculate_rsi risingCloses 13 = some 100 :=
    C6_amended_rsi_bounds.2 risingCloses 13 (13/14) hg hl (by norm_num)
  exact ⟨h100, C6_amended_rsi_bounds.1 risingCloses 13 100 h100⟩

/-- A kept row's recorded event time is its parsed time field. -/
theorem keptRows_time (relevant : List String) (now : ℤ) (rows : List NewsRow)
    (r : NewsRow) (t : ℤ) (h : (r, t) ∈ keptRows relevant now rows) :
    r.time = some t := by
  unfold keptRows at h
  rcases List.mem_filterMap.mp h with ⟨a, _, hf⟩
  cases ht : a.time with
  | none =>
    rw [ht] at hf
    exact absurd hf (by simp)
  | some t' =>
    rw [ht] at hf
    have hf' : (if (relevant.contains a.currency && keywordMatch a.eventName
        && decide ((t' - now).natAbs ≤ 86400)) = true
        then some (a, t') else (none : Option (NewsRow × ℤ))) = some (r, t) := hf
    by_cases hc : (relevant.contains a.currency && keywordMatch a.eventName
        && decide ((t' - now).natAbs ≤ 86400)) = true
    · rw [if_pos hc] at hf'
      simp only [Option.some.injEq, Prod.mk.injEq] at hf'
      obtain ⟨rfl, rfl⟩ := hf'
      exact ht
    · rw [if_neg hc] at hf'
      exact absurd hf' (by simp)

/-- Membership characterisation of the passed/upcoming split: a row is in
`upcoming` exactly when it was kept with a time not more than 60 minutes
before `now`, and in `passed` exactly when kept with a time more than 60
minutes before `now`. -/
theorem mem_classifyKept (now : ℤ) (kept : List (NewsRow × ℤ)) (r : NewsRow) :
    (r ∈ (classifyKept now kept).1 ↔ ∃ t, (r, t) ∈ kept ∧ ¬ t + 3600 < now) ∧
    (r ∈ (classifyKept now kept).2 ↔ ∃ t, (r, t) ∈ kept ∧ t + 3600 < now) := by
  induction kept with
  | nil => simp [classifyKept]
  | cons p rest ih =>
    obtain ⟨rh, th⟩ := p
    by_cases h : th + 3600 < now
    · simp only [classifyKept, if_pos h]
      constructor
      · rw [ih.1]
        constructor
        · rintro ⟨t0, ht0, hnot⟩
          exact ⟨t0, List.mem_cons_of_mem _ ht0, hnot⟩
        · rintro ⟨t0, ht0, hnot⟩
          rcases List.mem_cons.mp ht0 with heq | hmem
          · injection heq with h1 h2
            subst h2
            exact absurd h hnot
          · exact ⟨t0, hmem, hnot⟩
      · constructor
        · intro hmem
          rcases List.mem_cons.mp hmem with heq | hmem'
          · exact ⟨th, by rw [heq]; exact List.mem_cons_self _ _, h⟩
          · obtain ⟨t0, ht0, hc⟩ := ih.2.mp hmem'
            exact ⟨t0, List.mem_cons_of_mem _ ht0, hc⟩
        · rintro ⟨t0, ht0, hc⟩
          rcases List.mem_cons.mp ht0 with heq | hmem
          · injection heq with h1 h2
            subst h1
            exact List.mem_cons_self _ _
          · exact List.mem_cons_of_mem _ (ih.2.mpr ⟨t0, hmem, hc⟩)
    · simp only [classifyKept, if_neg h]
      constructor
      · constructor
        · intro hmem
          rcases List.mem_cons.mp hmem with heq | hmem'
          · exact ⟨th, by rw [heq]; exact List.mem_cons_self _ _, h⟩
          · obtain ⟨t0, ht0, hc⟩ := ih.1.mp hmem'
            exact ⟨t0, List.mem_cons_of_mem _ ht0, hc⟩
        · rintro ⟨t0, ht0, hc⟩
          rcases List.mem_cons.mp ht0 with heq | hmem
          · injection heq with h1 h2
            subst h1
            exact List.mem_cons_self _ _
          · exact List.mem_cons_of_mem _ (ih.1.mpr ⟨t0, hmem, hc⟩)
      · rw [ih.2]
        constructor
        · rintro ⟨t0, ht0, hc⟩
          exact ⟨t0, List.mem_cons_of_mem _ ht0, hc⟩
        · rintro ⟨t0, ht0, hc⟩
          rcases List.mem_cons.mp ht0 with heq | hmem
          · injection heq with h1 h2
            subst h2
            exact absurd hc h
          · exact ⟨t0, hmem, hc⟩

/-- C7: a kept news event lands in `passed` exactly when its event time
is more than 60 minutes before the current time, and in `upcoming`
otherwise; concretely, an event exactly 61 minutes in the past is passed
and one exactly 59 minutes in the past is upcoming
(96340 = 100000 − 61·60, 96460 = 100000 − 59·60). -/
theorem C7_passed_iff_over_60_minutes :
    (∀ (pair : String) (now : ℤ) (rows : List NewsRow) (r : NewsRow) (t : ℤ),
      (r, t) ∈ keptRows (splitSlash pair) now rows →
      ((r ∈ (fetch_news pair now (.success 200 rows)).passed ↔ t + 3600 < now) ∧
       (r ∈ (fetch_news pair now (.success 200 rows)).upcoming ↔
         ¬ t + 3600 < now))) ∧
    (fetch_news "EUR/USD" 100000 (.success 200 [⟨some 96340, "USD", "CPI"⟩])).passed
      = [⟨some 96340, "USD", "CPI"⟩] ∧
    (fetch_news "EUR/USD" 100000 (.success 200 [⟨some 96340, "USD", "CPI"⟩])).upcoming
      = [] ∧
    (fetch_news "EUR/USD" 100000 (.success 200 [⟨some 96460, "USD", "CPI"⟩])).upcoming
      = [⟨some 96460, "USD", "CPI"⟩] ∧
    (fetch_news "EUR/USD" 100000 (.success 200 [⟨some 96460, "USD", "CPI"⟩])).passed
      = [] := by
  refine ⟨?_, by decide, by decide, by decide, by decide⟩
  intro pair now rows r t hmem
  have hup : (fetch_news pair now (.success 200 rows)).upcoming =
      (classifyKept now (keptRows (splitSlash pair) now rows)).1 := by
    simp [fetch_news]
  have hpa : (fetch_news pair now (.success 200 rows)).passed =
      (classifyKept now (keptRows (splitSlash pair) now rows)).2 := by
    simp [fetch_news]
  rw [hup, hpa]
  have hdet : ∀ t'', (r, t'') ∈ keptRows (splitSlash pair) now rows → t'' = t := by
    intro t'' h''
    have e1 := keptRows_time _ _ _ _ _ h''
    have e2 := keptRows_time _ _ _ _ _ hmem
    rw [e1] at e2
    exact Option.some.inj e2
  constructor
  · rw [(mem_classifyKept now _ r).2]
    constructor
    · rintro ⟨t'', h'', hc⟩
      exact hdet t'' h'' ▸ hc
    · intro hc
      exact ⟨t, hmem, hc⟩
  · rw [(mem_classifyKept now _ r).1]
    constructor
    · rintro ⟨t'', h'', hc⟩
      exact hdet t'' h'' ▸ hc
    · intro hc
      exact ⟨t, hmem, hc⟩

/-- C7 witness: the 61-minutes-past event is kept and classified as
passed. -/
theorem C7_passed_iff_over_60_minutes_witness :
    (⟨some 96340, "USD", "CPI"⟩ : NewsRow) ∈
      (fetch_news "EUR/USD" 100000
        (.success 200 [⟨some 96340, "USD", "CPI"⟩])).passed :=
  ((C7_passed_iff_over_60_minutes.1 "EUR/USD" 100000
      [⟨some 96340, "USD", "CPI"⟩] ⟨some 96340, "USD", "CPI"⟩ 96340
      (by decide)).1).mpr (by decide)

end ForexShield
